import Mathlib

/-!
Shallow embedding of the `beeeees` game server (Rust) for specification checking.

The embedding follows the source files:
  * `src/game/world.rs`   — `Direction`, `Position`, `Tile`, `World`
  * `src/game/entity.rs`  — `BeeID`, `Moves`, `Bee`, `Hive`, `Flower`, `Bird`, `Car`
  * `src/game/mod.rs`     — `Player`, `Config`, `Entities`, `State`, `Serializer`
  * `src/server/mod.rs`   — `Shutdown`, `GameEvent`, `play_game`, `register`,
                            `handle_observer`, `handle_player`,
                            `player_processing_loop`, `process_packet`

Modelling conventions:
  * Rust integers (`i32`, `usize`, `u64`) become `Int`/`Nat`; no overflow is
    relevant to the verified properties (all arithmetic is small and signed
    arithmetic is modelled exactly by `Int`).
  * Global atomic counters (`PLAYER_COUNTER`, `BEE_COUNTER`) are threaded
    explicitly as `Nat` state, with the machine-word wrap-around of
    `fetch_add`/`inc` made explicit (modulo `2 ^ 64`, the width of `usize` on
    the supported targets and of `u64`).  The approximate counter used for
    `BeeID` (`inc` then `get` with flush threshold 20, whose `get` may lag
    and duplicate ids) is modelled as an exact wrapping counter; no verified
    claim depends on bee-id values.
  * Floating-point randomness (`gen_bool`, `WeightedIndex` sampling,
    `gen_range`) is modelled by an oracle (`Rng`) that directly supplies the
    outcome of each draw; the `f64` probability parameters of `Config` are
    absorbed into the oracle and carry no information of their own.
  * A Rust `panic!` / failed `assert!` / `todo!` is modelled as `Option.none`
    (respectively an explicit `panicked` outcome of the game loop).
  * `HashMap<(Player, BeeID), Direction>` (`Moves`) is modelled as a function
    into `Option Direction`; `HashSet<Player>` is modelled as a duplicate-free
    list; the name registry `HashMap<String, Player>` as an association list.
  * `Arc<Entities>` snapshots (`Serializer`) are modelled with an explicit
    append-only store of cells, so that the claim that snapshots do not alias
    the live mutable state is expressible.
-/

/-! ## `src/game/world.rs` -/

/-- The cardinal directions on the plane (`world.rs`, `Direction`). -/
inductive Direction
  | north
  | east
  | south
  | west
deriving DecidableEq, Repr

/-- A position on the world grid (`world.rs`, `Position`). -/
structure Position where
  x : Int
  y : Int
deriving DecidableEq, Repr

/-- `Position::step`: the next tile immediately in the given direction. -/
def Position.step (p : Position) : Direction → Position
  | .north => ⟨p.x, p.y + 1⟩
  | .east => ⟨p.x + 1, p.y⟩
  | .south => ⟨p.x, p.y - 1⟩
  | .west => ⟨p.x - 1, p.y⟩

/-- Kinds of tiles on the map (`world.rs`, `Tile`). -/
inductive Tile
  | grass
  | garden
  | neutral
  | road
  | block
  | spawnPoint
deriving DecidableEq, Repr

/-- `Tile::is_passable`: whether bees can pass through the tile. -/
def Tile.isPassable : Tile → Bool
  | .block => false
  | _ => true

/-- Whether `Tile::spawn_weight` is positive (`Grass` has weight 0.3, `Garden`
has weight 1.0, everything else 0.0).  Only positivity of the `f64` weight is
observable through the sampling oracle, so only positivity is modelled. -/
def Tile.spawnWeightPositive : Tile → Bool
  | .grass => true
  | .garden => true
  | _ => false

/-- `Tile::is_spawn_point`. -/
def Tile.isSpawnPoint : Tile → Bool
  | .spawnPoint => true
  | _ => false

/-- The world map (`world.rs`, `World`).  The cached `weights` field of the
Rust struct is a pure function of `map` and is modelled by
`World.positiveWeight` below. -/
structure World where
  width : Int
  height : Int
  map : List Tile
deriving DecidableEq, Repr

/-- `World::pos_to_index`.  The Rust function asserts the position is in
bounds; every call site checks the bounds first, so the conversion via
`Int.toNat` is exact at all call sites. -/
def World.posToIndex (w : World) (pos : Position) : Nat :=
  pos.x.toNat + w.width.toNat * pos.y.toNat

/-- `World::index_to_pos`. -/
def World.indexToPos (w : World) (index : Nat) : Position :=
  ⟨Int.ofNat (index % w.width.toNat), Int.ofNat (index / w.width.toNat)⟩

/-- `World::get`: the tile at the given position, or `none` if out of bounds. -/
def World.get (w : World) (pos : Position) : Option Tile :=
  if 0 ≤ pos.x ∧ pos.x < w.width ∧ 0 ≤ pos.y ∧ pos.y < w.height then
    w.map.get? (w.posToIndex pos)
  else
    none

/-- `World::get_spawn_points`: all tiles usable as spawn points for hives,
in index order. -/
def World.getSpawnPoints (w : World) : List Position :=
  w.map.enum.filterMap fun it =>
    if it.2.isSpawnPoint then some (w.indexToPos it.1) else none

/-! ## Players (`src/game/mod.rs`) -/

/-- Uniquely identifies a player (`game/mod.rs`, `Player(usize)`). -/
structure Player where
  id : Nat
deriving DecidableEq, Repr

/-- The number of values of `usize` (64-bit on the targets this server
supports): `AtomicUsize::fetch_add` wraps around modulo this. -/
def usizeSize : Nat := 2 ^ 64

/-- The initial value of the global `PLAYER_COUNTER` (`AtomicUsize::new(1)`). -/
def playerCounterStart : Nat := 1

/-- `Player::new`, with the global atomic counter threaded explicitly:
`fetch_add(1, Relaxed)` returns the stored (machine-word) value and stores
the incremented value, wrapping around on `usize` overflow. -/
def Player.new (counter : Nat) : Player × Nat :=
  (⟨counter % usizeSize⟩, (counter + 1) % usizeSize)

/-- `Player::observer`: the reserved observer sentinel. -/
def Player.observer : Player := ⟨0⟩

/-- `Player::is_observer`. -/
def Player.isObserver (p : Player) : Bool := p.id == 0

/-! ## Bees and moves (`src/game/entity.rs`) -/

/-- Uniquely identifies a bee (`entity.rs`, `BeeID(u64)`). -/
structure BeeID where
  id : Nat
deriving DecidableEq, Repr

/-- The number of values of `u64`: the bee counter wraps around modulo this. -/
def u64Size : Nat := 2 ^ 64

/-- `BeeID::new` with the global counter threaded explicitly, wrapping at the
`u64` boundary.  The Rust code uses an approximate counter
(`ApproxCounterU64::new(0, 20)`: `inc` then `get`), whose `get` may lag the
buffered increments and hence duplicate ids even single-threaded; it is
modelled as an exact counter — no verified claim depends on bee-id values. -/
def BeeID.newId (counter : Nat) : BeeID × Nat :=
  (⟨(counter + 1) % u64Size⟩, (counter + 1) % u64Size)

/-- The per-turn action map (`entity.rs`, `type Moves = HashMap<(Player,
BeeID), Direction>`), modelled as a lookup function. -/
def Moves := Player × BeeID → Option Direction

/-- `Moves::new`: the empty map. -/
def Moves.new : Moves := fun _ => none

/-- `HashMap::insert` on a `Moves` map. -/
def Moves.insert (m : Moves) (key : Player × BeeID) (d : Direction) : Moves :=
  fun k => if k = key then some d else m k

/-- `HashMap::remove` on a `Moves` map. -/
def Moves.remove (m : Moves) (key : Player × BeeID) : Moves :=
  fun k => if k = key then none else m k

/-- A bee controlled by a player (`entity.rs`, `Bee`). -/
structure Bee where
  id : BeeID
  player : Player
  position : Position
  pollen : Int
  energy : Int
  lastFlower : Option Position
deriving DecidableEq, Repr

/-- `Bee::new`: spawn a new bee at the given position. -/
def Bee.new (id : BeeID) (player : Player) (position : Position) : Bee :=
  { id := id, player := player, position := position,
    pollen := 0, energy := 50, lastFlower := none }

/-- `Bee::step`: move in the directed direction if the target tile is
passable; always expend one energy. -/
def Bee.step (b : Bee) (moves : Moves) (world : World) : Bee :=
  let b1 :=
    match moves (b.player, b.id) with
    | some dir =>
      let newPos := b.position.step dir
      match world.get newPos with
      | some tile => if tile.isPassable then { b with position := newPos } else b
      | none => b
    | none => b
  { b1 with energy := b1.energy - 1 }

/-- `Bee::rest`: rest the bee while visiting a hive. -/
def Bee.rest (b : Bee) : Bee :=
  { b with pollen := 0, lastFlower := none, energy := min (b.energy + 5) 50 }

/-- A flower (`entity.rs`, `Flower`). -/
structure Flower where
  position : Position
  pollen : Int
  isPollinated : Bool
deriving DecidableEq, Repr

/-- `Flower::new`. -/
def Flower.new (position : Position) (pollen : Int) : Flower :=
  { position := position, pollen := pollen, isPollinated := false }

/-- `Bee::transfer_pollen`: intermingle pollen with the first living flower
at the bee's position (`flowers.iter_mut().find`). -/
def Bee.transferPollen (b : Bee) : List Flower → Bee × List Flower
  | [] => (b, [])
  | f :: fs =>
    if f.position = b.position ∧ 0 < f.pollen then
      if 0 < b.pollen ∧ f.isPollinated = false ∧ b.lastFlower ≠ some f.position then
        ({ b with pollen := b.pollen - 1 }, { f with isPollinated := true } :: fs)
      else
        ({ b with pollen := b.pollen + 1, lastFlower := some f.position },
         { f with pollen := f.pollen - 1 } :: fs)
    else
      let r := b.transferPollen fs
      (r.1, f :: r.2)

/-- A bird (`entity.rs`, `Bird`). -/
structure Bird where
  position : Position
deriving DecidableEq, Repr

/-- `Bird::step` is `todo!()`: it panics whenever invoked. -/
def Bird.step (_b : Bird) (_world : World) : Option Bird := none

/-- A car (`entity.rs`, `Car`). -/
structure Car where
  position : Position
  facing : Direction
deriving DecidableEq, Repr

/-- `Car::step` is `todo!()`: it panics whenever invoked. -/
def Car.step (_c : Car) (_world : World) : Option Car := none

/-- `Bee::is_alive`: alive iff the bee has energy and collides with no bird
or car. -/
def Bee.isAlive (b : Bee) (birds : List Bird) (cars : List Car) : Bool :=
  0 < b.energy
    && birds.all (fun bird => bird.position ≠ b.position)
    && cars.all (fun car => car.position ≠ b.position)

/-- A player's hive (`entity.rs`, `Hive`). -/
structure Hive where
  player : Player
  position : Position
  score : Int
deriving DecidableEq, Repr

/-- `Hive::new`: a hive plus its three initial bees, threading the global bee
counter. -/
def Hive.new (player : Player) (position : Position) (beeCounter : Nat) :
    Hive × List Bee × Nat :=
  let id1 := BeeID.newId beeCounter
  let id2 := BeeID.newId id1.2
  let id3 := BeeID.newId id2.2
  ({ player := player, position := position, score := 0 },
   [Bee.new id1.1 player position, Bee.new id2.1 player position,
    Bee.new id3.1 player position],
   id3.2)

/-- `Hive::handle_bees`: transfer pollen of our bees sitting on the hive into
the score, resting each such bee, in list order. -/
def Hive.handleBees (h : Hive) : List Bee → Hive × List Bee
  | [] => (h, [])
  | b :: bs =>
    if b.position = h.position ∧ b.player = h.player then
      let r := Hive.handleBees { h with score := h.score + b.pollen } bs
      (r.1, b.rest :: r.2)
    else
      let r := h.handleBees bs
      (r.1, b :: r.2)

/-! ## Configuration and randomness (`src/game/mod.rs`) -/

/-- Game configuration (`game/mod.rs`, `Config`).  The `f64` probability
fields (`flower_spawn_chance`, `bee_spawn_chance`) are absorbed into the
randomness oracle (every `gen_bool` outcome is supplied directly), so only
the structured fields are carried. -/
structure Config where
  world : World
  /-- `flower_initial_pollen: RangeInclusive<i32>` as an inclusive pair. -/
  flowerInitialPollen : Int × Int
deriving Repr

/-- Randomness oracle standing in for `StdRng`.  Each stream gives the
outcome of the corresponding kind of draw; `k` counts the draws made. -/
structure Rng where
  /-- Outcomes of `gen_bool` draws. -/
  bools : Nat → Bool
  /-- Outcomes of `WeightedIndex::sample` draws (index into the list of
  positive-weight tiles). -/
  picks : Nat → Nat
  /-- Outcomes of `gen_range` draws (offset into the inclusive range). -/
  ints : Nat → Nat
  /-- Number of draws made so far. -/
  k : Nat

/-- Draw a `gen_bool` outcome from the oracle. -/
def Rng.genBool (r : Rng) : Bool × Rng :=
  (r.bools r.k, { r with k := r.k + 1 })

/-- Draw a `WeightedIndex::sample` outcome from the oracle. -/
def Rng.pickDraw (r : Rng) : Nat × Rng :=
  (r.picks r.k, { r with k := r.k + 1 })

/-- Draw a `gen_range` outcome from the oracle. -/
def Rng.intDraw (r : Rng) : Nat × Rng :=
  (r.ints r.k, { r with k := r.k + 1 })

/-- `gen_range(lo..=hi)` realised through the oracle: an arbitrary element of
the inclusive range (the range is nonempty in every reachable configuration). -/
def Rng.genRange (r : Rng) (lo hi : Int) : Int × Rng :=
  let d := r.intDraw
  (lo + Int.ofNat (d.1 % ((hi - lo + 1).toNat.max 1)), d.2)

/-- Whether index `i` of the world map currently has a positive sampling
weight: its tile has positive `spawn_weight` and it has not been zeroed by a
`WeightedIndex::update_weights` call. -/
def World.positiveWeight (w : World) (zeroed : List Nat) (i : Nat) : Bool :=
  (match w.map.get? i with
   | some t => t.spawnWeightPositive
   | none => false)
  && !(zeroed.contains i)

/-- The indices of the world map with currently positive sampling weight. -/
def World.positiveIndices (w : World) (zeroed : List Nat) : List Nat :=
  (List.range w.map.length).filter (w.positiveWeight zeroed)

/-- The body of the `from_fn` iterator of `World::spawn_flowers`, consumed to
exhaustion by `Vec::extend`.  `zeroed` are the indices already zeroed in the
weight distribution, `pending` the updates to apply on the next successful
draw (initially the positions of existing flowers, afterwards the previously
sampled index).  Each successful iteration zeroes a fresh index, so the
number of iterations is bounded by the map size; `fuel` makes that bound
explicit. -/
def World.spawnFlowersAux (w : World) (cfg : Config) :
    Nat → List Nat → List Nat → Rng → List Flower → List Flower × Rng
  | 0, _, _, rng, acc => (acc.reverse, rng)
  | fuel + 1, zeroed, pending, rng, acc =>
    let d := rng.genBool
    if d.1 then
      let zeroed1 := zeroed ++ pending
      let avail := w.positiveIndices zeroed1
      if avail.isEmpty then
        -- `update_weights` fails when the total weight reaches zero;
        -- `.ok()?` then ends the iterator.
        (acc.reverse, d.2)
      else
        let p := d.2.pickDraw
        let index := avail.getD (p.1 % avail.length) 0
        let g := p.2.genRange cfg.flowerInitialPollen.1 cfg.flowerInitialPollen.2
        let flower := Flower.new (w.indexToPos index) g.1
        w.spawnFlowersAux cfg fuel zeroed1 [index] g.2 (flower :: acc)
    else
      (acc.reverse, d.2)

/-- `World::spawn_flowers`: new flowers to spawn this turn, avoiding the
positions of existing flowers. -/
def World.spawnFlowers (w : World) (cfg : Config) (rng : Rng)
    (flowers : List Flower) : List Flower × Rng :=
  w.spawnFlowersAux cfg (w.map.length + 1) []
    (flowers.map (fun f => w.posToIndex f.position)) rng []

/-- `Hive::spawn_bee` for a list of hives, lazily consumed in hive order by
`Vec::extend` (`hives.iter().filter_map(|h| h.spawn_bee(rng, config))`).
Threads the oracle and the global bee counter. -/
def spawnBees : List Hive → Rng → Nat → List Bee × Rng × Nat
  | [], rng, ctr => ([], rng, ctr)
  | h :: hs, rng, ctr =>
    let d := rng.genBool
    if d.1 then
      let idn := BeeID.newId ctr
      let r := spawnBees hs d.2 idn.2
      (Bee.new idn.1 h.player h.position :: r.1, r.2)
    else
      spawnBees hs d.2 ctr

/-! ## Entities and game state (`src/game/mod.rs`) -/

/-- The mutable entities of the game (`game/mod.rs`, `Entities`). -/
structure Entities where
  bees : List Bee
  hives : List Hive
  flowers : List Flower
  birds : List Bird
  cars : List Car
deriving DecidableEq, Repr

/-- `Entities::new`: the source creates no entities ("create nothing"),
ignoring its `rng` and `world` arguments. -/
def Entities.new : Entities :=
  { bees := [], hives := [], flowers := [], birds := [], cars := [] }

/-- The hive pass of `Entities::tick`: each hive in order processes the full
(shared, mutable) bee list. -/
def handleHives : List Hive → List Bee → List Hive × List Bee
  | [], bees => ([], bees)
  | h :: hs, bees =>
    let r1 := h.handleBees bees
    let r2 := handleHives hs r1.2
    (r1.1 :: r2.1, r2.2)

/-- The pollen-transfer pass of `Entities::tick`: each bee in order transfers
with the shared, mutable flower list. -/
def transferAll : List Bee → List Flower → List Bee × List Flower
  | [], fs => ([], fs)
  | b :: bs, fs =>
    let r1 := b.transferPollen fs
    let r2 := transferAll bs r1.2
    (r1.1 :: r2.1, r2.2)

/-- `Entities::tick`: one game tick.  Returns `none` when the Rust code
panics (the `todo!()` in `Bird::step`/`Car::step`, reachable only when birds
or cars exist). -/
def Entities.tick (e : Entities) (cfg : Config) (rng : Rng) (beeCtr : Nat)
    (moves : Moves) : Option (Entities × Rng × Nat) :=
  let world := cfg.world
  let bees1 := e.bees.map (fun b => b.step moves world)
  match e.birds.mapM (fun b => b.step world), e.cars.mapM (fun c => c.step world) with
  | some birds1, some cars1 =>
    let hb := handleHives e.hives bees1
    let bees2 := hb.2.filter (fun b => b.isAlive birds1 cars1)
    let tr := transferAll bees2 e.flowers
    let sf := world.spawnFlowers cfg rng tr.2
    let flowers1 := (tr.2 ++ sf.1).filter (fun f => 0 < f.pollen)
    let sb := spawnBees hb.1 sf.2 beeCtr
    some ({ bees := tr.1 ++ sb.1, hives := hb.1, flowers := flowers1,
            birds := birds1, cars := cars1 }, sb.2.1, sb.2.2)
  | _, _ => none

/-- The current game state (`game/mod.rs`, `State`). -/
structure State where
  config : Config
  /-- Available spawn points remaining (`Vec<Position>`; `pop` takes the last). -/
  spawnPoints : List Position
  /-- The state's random number generator, as the oracle. -/
  rng : Rng
  entities : Entities

/-- `State::new`.  The Rust code seeds `StdRng::from_entropy()`; the entropy
is the supplied oracle. -/
def State.new (config : Config) (rng : Rng) : State :=
  { config := config, spawnPoints := config.world.getSpawnPoints,
    rng := rng, entities := Entities.new }

/-- `State::world`. -/
def State.world (s : State) : World := s.config.world

/-- `State::total_score`. -/
def State.totalScore (s : State) : Int :=
  (s.entities.hives.map Hive.score).sum

/-- `State::players`: all players in the game, via their hives. -/
def State.players (s : State) : List Player :=
  s.entities.hives.map (fun h => h.player)

/-- `State::add_player`: give the player a hive and three bees at a popped
spawn point; does nothing if the player is already in the game.  `none`
models the `assert!(!player.is_observer())` panic; the `Except` error is the
no-spawn-points failure.  Threads the global bee counter. -/
def State.addPlayer (s : State) (player : Player) (beeCtr : Nat) :
    Option (Except String (State × Nat)) :=
  if player.isObserver then
    none
  else
    some (
      if s.players.all (fun p => p ≠ player) then
        match s.spawnPoints.getLast? with
        | none => .error "Could not add player: no more available spawn points"
        | some position =>
          let hv := Hive.new player position beeCtr
          .ok ({ s with
                  spawnPoints := s.spawnPoints.dropLast,
                  entities := { s.entities with
                                hives := s.entities.hives ++ [hv.1],
                                bees := s.entities.bees ++ hv.2.1 } }, hv.2.2)
      else
        .ok (s, beeCtr))

/-- `State::tick`. -/
def State.tick (s : State) (beeCtr : Nat) (moves : Moves) :
    Option (State × Nat) :=
  (s.entities.tick s.config s.rng beeCtr moves).map fun r =>
    ({ s with entities := r.1, rng := r.2.1 }, r.2.2)

/-! ## Snapshots (`State::make_serializer`, `Serializer`)

`Serializer(Arc<Entities>)` owns a fresh deep copy (`self.entities.clone()`)
of the mutable entities.  To make the no-aliasing content of that statement
expressible, `Arc` allocations live in an explicit append-only store: a
serializer is a location in the store, created by copying the current
entities into a fresh cell.  Mutating operations on `State` (`tick`,
`add_player`) do not touch the store at all, exactly as the Rust mutations
never write through any previously created `Arc`. -/

/-- The arena of `Arc<Entities>` cells, in allocation order. -/
structure Store where
  cells : List Entities

/-- A thread-safe cached serializer (`game/mod.rs`, `Serializer`): a
reference to an immutable cell of the store. -/
structure Serializer where
  loc : Nat
deriving DecidableEq, Repr

/-- `State::make_serializer`: `Serializer(Arc::new(self.entities.clone()))` —
copy the current entities into a fresh cell. -/
def State.makeSerializer (s : State) (st : Store) : Serializer × Store :=
  (⟨st.cells.length⟩, ⟨st.cells ++ [s.entities]⟩)

/-- The serialised output of a serializer: the entities stored in its cell
(serde serialises exactly the `Entities` value). -/
def Serializer.read (ser : Serializer) (st : Store) : Option Entities :=
  st.cells.get? ser.loc

/-! ## Protocol messages (`src/server/protocol.rs`) -/

/-- A single movement for a bee (`protocol.rs`, `Move`); `direction = none`
indicates that no movement should be made. -/
structure MoveMsg where
  bee : BeeID
  direction : Option Direction
deriving DecidableEq, Repr

/-- Messages received from the client (`protocol.rs`, `Receive`). -/
inductive InMsg
  | register (name : String)
  | movesMsg (moves : List MoveMsg)
deriving DecidableEq, Repr

/-- Messages sent by the server (`protocol.rs`, `Send`).  The `Registration`
payload (world, player id, tick rate) and the `Update` payload are immaterial
to the sequencing claims; `Update` keeps its serializer so that distinct
snapshots stay distinguishable. -/
inductive SrvMsg
  | registration
  | update (data : Serializer)
  | warning (msg : String)
  | error (msg : String)
  | done
deriving DecidableEq, Repr

/-- `SrvMsg.isError`: whether a server message is the fatal `Error` variant. -/
def SrvMsg.isError : SrvMsg → Bool
  | .error _ => true
  | _ => false

/-! ## The game loop (`src/server/mod.rs`, `play_game`) -/

/-- An event passed to the active game (`server/mod.rs`, `GameEvent`).  The
`oneshot` response channel of `AddPlayer` is modelled by the reply value the
loop step produces. -/
inductive GameEvent
  | addPlayer (player : Player)
  | disconnect (player : Player)
  | move (player : Player) (moves : List MoveMsg)
  | finish
deriving Repr

/-- One iteration of `play_game`'s `tokio::select!`: either the next value of
`events.recv()` (`none` when the channel has closed) or a tick-timer expiry. -/
inductive LoopInput
  | event (e : Option GameEvent)
  | tick
deriving Repr

/-- The mutable state of one `play_game` execution: the game state, the
pending-moves buffer, the active-player set, the global bee counter, the
arena of published snapshots, and the list of snapshots broadcast so far. -/
structure LoopState where
  state : State
  nextMoves : Moves
  activePlayers : List Player
  beeCtr : Nat
  store : Store
  broadcasts : List Serializer

/-- The result of processing one `LoopInput`: continue with a new state
(carrying the `AddPlayer` reply if the input was an `AddPlayer`), break out
of the loop, or panic. -/
inductive StepOutcome
  | cont (ls : LoopState) (reply : Option (Except String Unit))
  | halt (ls : LoopState)
  | panicked

/-- The reply sent on an `AddPlayer` response channel by this step, if any. -/
def StepOutcome.replyOf : StepOutcome → Option (Except String Unit)
  | .cont _ r => r
  | _ => none

/-- `HashSet::insert`: append if absent; the returned flag tells whether the
value was newly inserted. -/
def insertActive (l : List Player) (p : Player) : List Player × Bool :=
  if p ∈ l then (l, false) else (l ++ [p], true)

/-- Merge one `protocol::Move` into the pending-moves buffer, per the `Move`
handler of `play_game`: a present direction overwrites, an absent direction
removes. -/
def applyMove (player : Player) (nm : Moves) (mv : MoveMsg) : Moves :=
  match mv.direction with
  | some d => nm.insert (player, mv.bee) d
  | none => nm.remove (player, mv.bee)

/-- Merge a whole `Move` event into the pending-moves buffer (the `for`
loop of the `Move` handler). -/
def applyMoves (player : Player) (moves : List MoveMsg) (nm : Moves) : Moves :=
  moves.foldl (applyMove player) nm

/-- One iteration of `play_game`'s loop body. -/
def loopStep (ls : LoopState) : LoopInput → StepOutcome
  | .event (some (.addPlayer player)) =>
    if player.isObserver then
      .cont ls (some (.ok ()))
    else
      match ls.state.addPlayer player ls.beeCtr with
      | none => .panicked
      | some (.error e) => .cont ls (some (.error e))
      | some (.ok r) =>
        let ins := insertActive ls.activePlayers player
        if ins.2 then
          .cont { ls with state := r.1, beeCtr := r.2, activePlayers := ins.1 }
            (some (.ok ()))
        else
          .cont { ls with state := r.1, beeCtr := r.2, activePlayers := ins.1 }
            (some (.error "Duplicate player ID"))
  | .event (some (.disconnect player)) =>
    -- `active_players.remove`; a missing player only logs a warning.
    .cont { ls with activePlayers := ls.activePlayers.erase player } none
  | .event (some (.move player moves)) =>
    if player.isObserver then
      .panicked  -- `assert!(!player.is_observer())`
    else
      .cont { ls with nextMoves := applyMoves player moves ls.nextMoves } none
  | .event (some .finish) => .halt ls
  | .event none => .halt ls
  | .tick =>
    match ls.state.tick ls.beeCtr ls.nextMoves with
    | none => .panicked
    | some r =>
      let ser := r.1.makeSerializer ls.store
      .cont { ls with
                state := r.1, beeCtr := r.2, store := ser.2,
                broadcasts := ls.broadcasts ++ [ser.1], nextMoves := Moves.new }
        none

/-- How a `play_game` execution ended (relative to the inputs supplied):
still running, broken out of the loop (`Finish` or channel closure), or
panicked. -/
inductive LoopStatus
  | running
  | stopped
  | panicked
deriving DecidableEq, Repr

/-- Run `play_game` over a sequence of select outcomes. -/
def runLoop (ls : LoopState) : List LoopInput → LoopState × LoopStatus
  | [] => (ls, .running)
  | i :: is =>
    match loopStep ls i with
    | .cont ls2 _ => runLoop ls2 is
    | .halt ls2 => (ls2, .stopped)
    | .panicked => (ls, .panicked)

/-- The loop state at the start of `play_game`: empty pending moves, empty
active-player set, no snapshots yet. -/
def initLoopState (st : State) (beeCtr : Nat) : LoopState :=
  { state := st, nextMoves := Moves.new, activePlayers := [], beeCtr := beeCtr,
    store := ⟨[]⟩, broadcasts := [] }

/-! ## The player registry (`handle_player`, `players` map)

`ClientState.players : Arc<Mutex<HashMap<String, Player>>>` together with
`players.lock().unwrap().entry(name).or_insert_with(Player::new)`.  The map
is modelled as an association list in insertion order plus the global
`PLAYER_COUNTER`. -/

/-- The name-to-identity registry shared by all sessions. -/
structure Registry where
  entries : List (String × Player)
  counter : Nat
deriving Repr

/-- The registry at process start: no names, counter at its initial value. -/
def Registry.init : Registry := ⟨[], playerCounterStart⟩

/-- `HashMap::get`-style lookup (first matching entry). -/
def Registry.lookup (r : Registry) (name : String) : Option Player :=
  (r.entries.find? (fun e => e.1 = name)).map (fun e => e.2)

/-- `entry(name).or_insert_with(Player::new)`: return the registered id, or
allocate a fresh one and insert it.  `Player::new` runs only when the entry
is vacant. -/
def Registry.getOrInsert (r : Registry) (name : String) : Player × Registry :=
  match r.lookup name with
  | some p => (p, r)
  | none =>
    let pn := Player.new r.counter
    (pn.1, ⟨r.entries ++ [(name, pn.1)], pn.2⟩)

/-- A sequence of registrations performed during one process run. -/
def runRegistry (r : Registry) : List String → Registry
  | [] => r
  | n :: ns => runRegistry (r.getOrInsert n).2 ns

/-! ## The shutdown signal (`server/mod.rs`, `Shutdown`) -/

/-- `Shutdown::should_shutdown`: the current value of the `watch` channel. -/
def Shutdown.shouldShutdown (flag : Bool) : Bool := flag

/-- How a call to `Shutdown::recv` behaves on a given flag value. -/
inductive RecvBehavior
  | immediate
  | waitsOnChannel
deriving DecidableEq, Repr

/-- `Shutdown::recv`: return immediately when the flag is already set,
otherwise wait on `signal.changed()`. -/
def Shutdown.recv (flag : Bool) : RecvBehavior :=
  if Shutdown.shouldShutdown flag then .immediate else .waitsOnChannel

/-- All values this program ever sends on the shutdown `watch` channel: the
single `shutdown_signal_tx.send(true)` in `make_game_server`'s shutdown
future. -/
def shutdownSends : List Bool := [true]

/-- The value of a `watch` channel (initially `false`) after a sequence of
sends: the last value sent, if any. -/
def watchValue (writes : List Bool) : Bool :=
  writes.foldl (fun _ v => v) false

/-! ## Client sessions (`handle_player`, `handle_observer`,
`player_processing_loop`, `register`, `process_packet`)

A session is driven by a script recording how each asynchronous race of the
session resolved: the first `select!` (registration packet versus shutdown),
the outcome of `register` (which bundles the event-queue send and the
`oneshot` reply), and then the interleaving of broadcast receives and
inbound packets seen by the processing loop.  The session functions below
replay `handle_player`/`handle_observer` deterministically over such a
script, returning the list of messages sent to the client and the session's
result. -/

/-- One `broadcast::Receiver::recv` outcome. -/
inductive BroadcastResult
  | ok (data : Serializer)
  | lagged (n : Nat)
  | closed
deriving DecidableEq, Repr

/-- One iteration of the `Active`-phase `select!`: a broadcast outcome or an
inbound stream item (`none` is end-of-stream, `Except.error` a
transport/decoding error carrying its message text). -/
inductive ActiveIn
  | update (r : BroadcastResult)
  | packet (p : Option (Except String InMsg))
deriving Repr

/-- The resolution of the registration-phase `select!` in `handle_player`. -/
inductive SessionFirst
  | shutdownFired
  | packet (p : Option (Except String InMsg))
deriving Repr

/-- The outcome of `register`'s interaction with the game loop: the event
queue was already closed, the `AddPlayer` reply was an error with the given
message, or registration was accepted. -/
inductive RegOutcome
  | queueClosed
  | refused (msg : String)
  | accepted
deriving DecidableEq, Repr

/-- The full script of one session. -/
structure SessionScript where
  first : SessionFirst
  reg : RegOutcome
  active : List ActiveIn
deriving Repr

/-- How a session ended: `handle_player` returned `Ok`, returned `Err`, or
the script ended with the session still running. -/
inductive SessResult
  | completedOk
  | completedErr
  | stillRunning
deriving DecidableEq, Repr

/-- The lag warning text (`format!("Lagging behind: skipped {} update(s)",
skipped)`). -/
def lagMessage (n : Nat) : String :=
  "Lagging behind: skipped " ++ toString n ++ " update(s)"

/-- `player_processing_loop` plus `process_packet` over a script: the
messages sent and how the loop ended.  `Ok` only on a closed broadcast
channel; `Err` only on inbound end-of-stream. -/
def playerLoop : List ActiveIn → List SrvMsg × SessResult
  | [] => ([], .stillRunning)
  | .update (.ok d) :: rest =>
    let r := playerLoop rest
    (.update d :: r.1, r.2)
  | .update (.lagged n) :: rest =>
    let r := playerLoop rest
    (.warning (lagMessage n) :: r.1, r.2)
  | .update .closed :: _ => ([], .completedOk)
  | .packet (some (.ok (.movesMsg _))) :: rest =>
    -- forwarded to the game loop as a `Move` event; nothing sent to the client
    playerLoop rest
  | .packet (some (.ok (.register _))) :: rest =>
    let r := playerLoop rest
    (.warning "Bad input" :: r.1, r.2)
  | .packet (some (.error _)) :: rest =>
    let r := playerLoop rest
    (.warning "Bad input" :: r.1, r.2)
  | .packet none :: _ => ([], .completedErr)

/-- The receive loop of `handle_observer`: the observer drops its inbound
stream (packets are never read), forwards updates, logs — but does not
send — a lag warning, and breaks when the channel closes. -/
def obsLoop : List ActiveIn → List SrvMsg × SessResult
  | [] => ([], .stillRunning)
  | .update (.ok d) :: rest =>
    let r := obsLoop rest
    (.update d :: r.1, r.2)
  | .update (.lagged _) :: rest => obsLoop rest
  | .update .closed :: _ => ([], .completedOk)
  | .packet _ :: rest => obsLoop rest

/-- `handle_observer` from the `register` call onwards (also the target of
the empty-name downgrade in `handle_player`). -/
def handleObserverScript (reg : RegOutcome) (active : List ActiveIn) :
    List SrvMsg × SessResult :=
  match reg with
  | .queueClosed => ([.error "Game already finished"], .completedErr)
  | .refused m => ([.error m], .completedErr)
  | .accepted =>
    let r := obsLoop active
    match r.2 with
    | .completedOk => (.registration :: (r.1 ++ [.done]), .completedOk)
    | .completedErr => (.registration :: r.1, .completedErr)
    | .stillRunning => (.registration :: r.1, .stillRunning)

/-- `handle_player` over a session script. -/
def handlePlayer (s : SessionScript) : List SrvMsg × SessResult :=
  match s.first with
  | .shutdownFired =>
    -- shutdown won the registration race: Error, close, return Ok(())
    ([.error "Game already finished"], .completedOk)
  | .packet none =>
    -- far side closed while collecting the name: Err, nothing sent
    ([], .completedErr)
  | .packet (some (.error e)) => ([.error e], .completedErr)
  | .packet (some (.ok (.movesMsg _))) =>
    ([.error "Expected registration"], .completedErr)
  | .packet (some (.ok (.register name))) =>
    if name = "" then
      handleObserverScript s.reg s.active
    else
      match s.reg with
      | .queueClosed => ([.error "Game already finished"], .completedErr)
      | .refused m => ([.error m], .completedErr)
      | .accepted =>
        let r := playerLoop s.active
        match r.2 with
        | .completedOk => (.registration :: (r.1 ++ [.done]), .completedOk)
        | .completedErr =>
          -- a `Disconnect` event is sent to the game loop; no client message
          (.registration :: r.1, .completedErr)
        | .stillRunning => (.registration :: r.1, .stillRunning)

/-! ## Concrete fixtures used by witness theorems -/

/-- A fixed oracle for concrete executions: every `gen_bool` draw yields
`false` (no random spawning), every other draw yields 0. -/
def rng0 : Rng := ⟨fun _ => false, fun _ => 0, fun _ => 0, 0⟩

/-- A small world: one grass tile and one spawn point. -/
def world0 : World := { width := 2, height := 1, map := [Tile.grass, Tile.spawnPoint] }

/-- A configuration over `world0` with the default pollen range `3..=5`. -/
def cfg0 : Config := { world := world0, flowerInitialPollen := (3, 5) }

/-- A fresh game over `world0`. -/
def st0 : State := State.new cfg0 rng0

/-- A hive owned by player 1 at the spawn point of `world0`. -/
def hive1 : Hive := { player := ⟨1⟩, position := ⟨1, 0⟩, score := 0 }

/-- `st0` with player 1 already in the game (owning `hive1`). -/
def stWith1 : State :=
  { st0 with entities := { st0.entities with hives := [hive1] } }

/-! ## Helper lemmas about `State.addPlayer` -/

/-- If `add_player` succeeds then the player is in the game afterwards, and
every previously present player is still present. -/
theorem addPlayer_ok_mem {s : State} {player : Player} {ctr : Nat}
    {s2 : State} {ctr2 : Nat}
    (h : s.addPlayer player ctr = some (.ok (s2, ctr2))) :
    player ∈ s2.players ∧ ∀ q ∈ s.players, q ∈ s2.players := by
  unfold State.addPlayer at h
  by_cases hobs : player.isObserver
  · simp [hobs] at h
  · rw [if_neg hobs] at h
    by_cases hall : s.players.all (fun p => p ≠ player) = true
    · rw [if_pos hall] at h
      cases hlast : s.spawnPoints.getLast? with
      | none => rw [hlast] at h; simp at h
      | some pos =>
        rw [hlast] at h
        simp only [Option.some.injEq, Except.ok.injEq, Prod.mk.injEq] at h
        obtain ⟨hs2, hctr⟩ := h
        subst hs2
        constructor
        · simp [State.players, Hive.new]
        · intro q hq
          simp only [State.players, List.map_append] at hq ⊢
          exact List.mem_append_left _ hq
    · rw [if_neg hall] at h
      simp only [Option.some.injEq, Except.ok.injEq, Prod.mk.injEq] at h
      obtain ⟨hs2, hctr⟩ := h
      subst hs2
      refine ⟨?_, fun q hq => hq⟩
      simp only [List.all_eq_true, decide_eq_true_eq] at hall
      push_neg at hall
      obtain ⟨q, hq, hqp⟩ := hall
      exact hqp ▸ hq

/-- `add_player` for a player already in the game is `Ok` and a complete
no-op: the state and the bee counter are returned unchanged. -/
theorem addPlayer_of_mem (s : State) (player : Player) (ctr : Nat)
    (hobs : player.isObserver = false) (hmem : player ∈ s.players) :
    s.addPlayer player ctr = some (.ok (s, ctr)) := by
  unfold State.addPlayer
  rw [if_neg (by simp [hobs])]
  have hall : s.players.all (fun p => p ≠ player) = false := by
    rw [Bool.eq_false_iff]
    intro hc
    rw [List.all_eq_true] at hc
    have := hc player hmem
    simp at this
  have hne : ¬ (s.players.all (fun p => p ≠ player) = true) := by
    rw [hall]; simp
  rw [if_neg hne]

/-- C10 (implicit): `State::add_player` for a player already owning a hive
returns `Ok` and leaves the entire state unchanged — no spawn point is
popped and no new hive or bees are created — and consequently, once a player
has been admitted, every further admission of that player is an exact no-op,
so repeated admissions consume at most one spawn point. -/
theorem c10_add_player_frame (s : State) (player : Player) (ctr : Nat)
    (hobs : player.isObserver = false) :
    (player ∈ s.players → s.addPlayer player ctr = some (.ok (s, ctr))) ∧
    (∀ s2 ctr2, s.addPlayer player ctr = some (.ok (s2, ctr2)) →
      s2.addPlayer player ctr2 = some (.ok (s2, ctr2))) := by
  refine ⟨fun hmem => addPlayer_of_mem s player ctr hobs hmem, ?_⟩
  intro s2 ctr2 h
  exact addPlayer_of_mem s2 player ctr2 hobs (addPlayer_ok_mem h).1

/-- Witness for C10: in a concrete game where player 1 already owns a hive,
`add_player` is an `Ok` no-op. -/
theorem c10_witness : stWith1.addPlayer ⟨1⟩ 7 = some (.ok (stWith1, 7)) :=
  (c10_add_player_frame stWith1 ⟨1⟩ 7 rfl).1 (by decide)

/-! ## Registry lemmas and C3 -/

/-- A lookup that succeeds keeps succeeding with the same id after any
further lookup-or-insert (entries are only ever appended, and the first
matching entry wins). -/
theorem Registry.lookup_getOrInsert_mono (r : Registry) (m name : String)
    {p : Player} (h : r.lookup name = some p) :
    ((r.getOrInsert m).2).lookup name = some p := by
  unfold Registry.getOrInsert
  cases hm : r.lookup m with
  | some q => simpa using h
  | none =>
    simp only [Registry.lookup, Option.map_eq_some'] at h ⊢
    obtain ⟨e, he, hep⟩ := h
    exact ⟨e, by rw [List.find?_append, he]; rfl, hep⟩

/-- When the lookup succeeds, `getOrInsert` returns the found id and leaves
the registry untouched. -/
theorem Registry.getOrInsert_of_found {r : Registry} {name : String}
    {p : Player} (h : r.lookup name = some p) :
    r.getOrInsert name = (p, r) := by
  unfold Registry.getOrInsert
  rw [h]

/-- After `getOrInsert`, the name maps to the returned id. -/
theorem Registry.lookup_getOrInsert_self (r : Registry) (name : String) :
    ((r.getOrInsert name).2).lookup name = some (r.getOrInsert name).1 := by
  cases hm : r.lookup name with
  | some q => rw [Registry.getOrInsert_of_found hm]; exact hm
  | none =>
    have hfind : r.entries.find? (fun e => e.1 = name) = none := by
      unfold Registry.lookup at hm
      exact Option.map_eq_none'.mp hm
    unfold Registry.getOrInsert
    rw [hm]
    simp only [Registry.lookup, Option.map_eq_some']
    exact ⟨(name, (Player.new r.counter).1),
      by rw [List.find?_append, hfind]; simp, rfl⟩

/-- Lookups survive any further sequence of registrations. -/
theorem runRegistry_lookup_mono (ops : List String) (r : Registry)
    (name : String) {p : Player} (h : r.lookup name = some p) :
    (runRegistry r ops).lookup name = some p := by
  induction ops generalizing r with
  | nil => exact h
  | cons n ns ih =>
    exact ih _ (Registry.lookup_getOrInsert_mono r n name h)

/-- The registry entry list only ever grows by appending. -/
theorem runRegistry_entries_mono (ops : List String) (r : Registry) :
    ∃ t, (runRegistry r ops).entries = r.entries ++ t := by
  induction ops generalizing r with
  | nil => exact ⟨[], by simp [runRegistry]⟩
  | cons n ns ih =>
    obtain ⟨t, ht⟩ := ih (r.getOrInsert n).2
    have hstep : runRegistry r (n :: ns) = runRegistry (r.getOrInsert n).2 ns := rfl
    rw [hstep, ht]
    cases hm : r.lookup n with
    | some q => exact ⟨t, by simp [Registry.getOrInsert, hm]⟩
    | none =>
      exact ⟨(n, (Player.new r.counter).1) :: t,
        by simp [Registry.getOrInsert, hm]⟩

/-- C3: the player registry is a stable append-only name-to-identity map:
for every non-empty display name, every lookup-or-insert of that name during
one process run returns the id allocated on its first registration, and no
entry is ever removed (the entry list only grows by appending). -/
theorem c3_registry_stable (r : Registry) (name : String) (_hname : name ≠ "")
    (ops : List String) :
    ((runRegistry (r.getOrInsert name).2 ops).getOrInsert name).1
        = (r.getOrInsert name).1 ∧
    (runRegistry (r.getOrInsert name).2 ops).lookup name
        = some (r.getOrInsert name).1 ∧
    (∃ t, (runRegistry (r.getOrInsert name).2 ops).entries = r.entries ++ t) := by
  have hself := Registry.lookup_getOrInsert_self r name
  have hlook := runRegistry_lookup_mono ops _ name hself
  refine ⟨?_, hlook, ?_⟩
  · rw [Registry.getOrInsert_of_found hlook]
  · obtain ⟨t, ht⟩ := runRegistry_entries_mono ops (r.getOrInsert name).2
    rw [ht]
    cases hm : r.lookup name with
    | some q => exact ⟨t, by simp [Registry.getOrInsert, hm]⟩
    | none =>
      exact ⟨(name, (Player.new r.counter).1) :: t,
        by simp [Registry.getOrInsert, hm]⟩

/-- Witness for C3: registering "alice", then "bob" and "alice" again, the
second "alice" registration returns the id of the first. -/
theorem c3_witness :
    ((runRegistry (Registry.init.getOrInsert "alice").2 ["bob", "alice"]).getOrInsert
        "alice").1 = (Registry.init.getOrInsert "alice").1 :=
  (c3_registry_stable Registry.init "alice" (by decide) ["bob", "alice"]).1

/-! ## C6: the shutdown signal -/

/-- The watch value after further sends is the last send, and sending only
`true` keeps a `true` value `true`. -/
theorem watchValue_append_true (ws1 ws2 : List Bool)
    (h2 : ∀ w ∈ ws2, w ∈ shutdownSends) (h1 : watchValue ws1 = true) :
    watchValue (ws1 ++ ws2) = true := by
  unfold watchValue at h1 ⊢
  rw [List.foldl_append, h1]
  clear h1
  induction ws2 with
  | nil => rfl
  | cons w ws ih =>
    have hw : w = true := by simpa [shutdownSends] using h2 w (by simp)
    subst hw
    exact ih fun v hv => h2 v (by simp [hv])

/-- C6: the shutdown signal is cancel-safe for late subscribers: calling
`Shutdown::recv` when the flag is already `true` completes immediately
without waiting on the underlying channel, and — since the program's only
send on the channel is `send(true)` — once the flag is `true` it never
reverts, so a waiter subscribing after the flip still sees `true` and
returns immediately. -/
theorem c6_shutdown_cancel_safe (ws1 ws2 : List Bool)
    (_h1 : ∀ w ∈ ws1, w ∈ shutdownSends) (h2 : ∀ w ∈ ws2, w ∈ shutdownSends) :
    Shutdown.recv true = .immediate ∧
    (watchValue ws1 = true → watchValue (ws1 ++ ws2) = true) ∧
    (watchValue ws1 = true →
      Shutdown.recv (watchValue (ws1 ++ ws2)) = .immediate) := by
  refine ⟨by decide, watchValue_append_true ws1 ws2 h2, fun h => ?_⟩
  rw [watchValue_append_true ws1 ws2 h2 h]
  decide

/-- Witness for C6: after the single `send(true)` the flag reads `true` and
a late `recv` returns immediately. -/
theorem c6_witness :
    Shutdown.recv true = .immediate ∧
    watchValue ([true] ++ []) = true ∧
    Shutdown.recv (watchValue ([true] ++ [])) = .immediate := by
  have h := c6_shutdown_cancel_safe [true] []
    (by simp [shutdownSends]) (by simp)
  exact ⟨h.1, h.2.1 rfl, h.2.2 rfl⟩

/-! ## C9: sentinel disjointness -/

/-- The players produced by `k` successive calls to `Player::new`, starting
from counter value `c`. -/
def playersFrom : Nat → Nat → List Player
  | _, 0 => []
  | c, k + 1 => (Player.new c).1 :: playersFrom (Player.new c).2 k

/-- Every id allocated from a counter value `c` is of the form
`(c + i) % usizeSize` for some step `i` of the chain. -/
theorem mem_playersFrom_id {c k : Nat} {p : Player}
    (h : p ∈ playersFrom c k) :
    ∃ i, i < k ∧ p.id = (c + i) % usizeSize := by
  induction k generalizing c with
  | zero => simp [playersFrom] at h
  | succ k ih =>
    simp only [playersFrom, Player.new, List.mem_cons] at h
    rcases h with rfl | h
    · exact ⟨0, by omega, by simp⟩
    · obtain ⟨i, hik, hid⟩ := ih h
      refine ⟨i + 1, by omega, ?_⟩
      rw [hid, Nat.mod_add_mod]
      congr 1
      omega

/-- Conversely, every value `(c + i) % usizeSize` with `i < k` is allocated
by the chain of `k` calls starting at counter `c`. -/
theorem playersFrom_mem (c k i : Nat) (hik : i < k) :
    (⟨(c + i) % usizeSize⟩ : Player) ∈ playersFrom c k := by
  induction k generalizing c i with
  | zero => omega
  | succ k ih =>
    simp only [playersFrom, Player.new, List.mem_cons]
    cases i with
    | zero => left; simp
    | succ i =>
      right
      have heq : ((c + 1) % usizeSize + i) % usizeSize
          = (c + (i + 1)) % usizeSize := by
        rw [Nat.mod_add_mod]
        congr 1
        omega
      rw [← heq]
      exact ih ((c + 1) % usizeSize) i (by omega)

/-- Counterexample to C9 as stated: `PLAYER_COUNTER` is a wrapping
`AtomicUsize`, so `Player::new` does not always produce a non-observer id —
the allocation chain of length `2 ^ 64` from the initial counter 1 contains
`Player::observer()` (the wrapped counter reaches 0 and is handed out). -/
theorem c9_counterexample :
    Player.observer ∈ playersFrom playerCounterStart usizeSize := by
  have hN : 1 < usizeSize := by norm_num [usizeSize]
  have h := playersFrom_mem 1 usizeSize (usizeSize - 1) (by omega)
  have heq : (1 + (usizeSize - 1)) % usizeSize = 0 := by
    have h1 : 1 + (usizeSize - 1) = usizeSize := by omega
    rw [h1, Nat.mod_self]
  rw [heq] at h
  exact h

/-- C9 (amended): every `PlayerId` produced by `Player::new` during the
first `2 ^ 64 - 1` allocations of a run satisfies `is_observer() = false`
(the wrapping `usize` counter starts at 1 and stays nonzero until it wraps
at `usize::MAX` — more allocations than a process can perform; the
`2 ^ 64`-th allocation would mint the sentinel), and `Player::observer()` is
the unique value for which `is_observer()` is true: within any feasible run
a registered named player is never mistaken for the observer sentinel. -/
theorem c9_sentinel_disjoint (k : Nat) (hk : k < usizeSize) :
    (∀ p ∈ playersFrom playerCounterStart k, p.isObserver = false) ∧
    Player.observer.isObserver = true ∧
    (∀ p : Player, p.isObserver = true → p = Player.observer) := by
  refine ⟨?_, rfl, ?_⟩
  · intro p hp
    obtain ⟨i, hik, hid⟩ := mem_playersFrom_id hp
    have hpc : playerCounterStart = 1 := rfl
    rw [hpc] at hid
    have hlt : 1 + i < usizeSize := by omega
    rw [Nat.mod_eq_of_lt hlt] at hid
    simp only [Player.isObserver, hid, beq_eq_false_iff_ne, ne_eq]
    omega
  · intro p hp
    simp only [Player.isObserver, beq_iff_eq] at hp
    cases p
    simp_all [Player.observer]

/-- Witness for C9 (amended): with 2 allocations (fewer than `2 ^ 64`), the
first allocated player is not the observer, and the value with id 0 is the
observer sentinel. -/
theorem c9_witness :
    (⟨1⟩ : Player).isObserver = false ∧ (⟨0⟩ : Player) = Player.observer :=
  ⟨(c9_sentinel_disjoint 2 (by norm_num [usizeSize])).1 ⟨1⟩ (by decide),
   (c9_sentinel_disjoint 2 (by norm_num [usizeSize])).2.2 ⟨0⟩ rfl⟩

/-! ## C8: snapshot independence -/

/-- Reading a cell below the frozen part of a store is unaffected by any
further allocations. -/
theorem Serializer.read_extend (ser : Serializer) (cells ext : List Entities)
    (h : ser.loc < cells.length) :
    ser.read ⟨cells ++ ext⟩ = ser.read ⟨cells⟩ := by
  unfold Serializer.read
  simp only [List.get?_eq_getElem?]
  exact List.getElem?_append_left h

/-- A fresh serializer reads back the entities copied at creation. -/
theorem makeSerializer_read (s : State) (st : Store) :
    ((s.makeSerializer st).1).read (s.makeSerializer st).2 = some s.entities := by
  unfold State.makeSerializer Serializer.read
  simp only [List.get?_eq_getElem?]
  exact List.getElem?_concat_length _ _

/-- C8: the serializer returned by `State::make_serializer` owns a deep copy
of the mutable entities: it reads back the entities captured at creation, it
still does so in any store extended by later allocations, every serializer
created later (in particular after a `tick` or `add_player` mutation) lives
in a distinct fresh cell, and the states produced by `tick` and `add_player`
are new values that leave the original serializer's output unchanged. -/
theorem c8_snapshot_independence (s : State) (st : Store) (ext : List Entities)
    (ctr : Nat) (moves : Moves) :
    ((s.makeSerializer st).1).read (s.makeSerializer st).2 = some s.entities ∧
    ((s.makeSerializer st).1).read ⟨((s.makeSerializer st).2).cells ++ ext⟩
        = some s.entities ∧
    (∀ s2 : State,
      ((s2.makeSerializer ⟨((s.makeSerializer st).2).cells ++ ext⟩).1).loc
        ≠ ((s.makeSerializer st).1).loc) ∧
    (∀ s2 ctr2, s.tick ctr moves = some (s2, ctr2) →
      ((s.makeSerializer st).1).read (s2.makeSerializer (s.makeSerializer st).2).2
        = some s.entities ∧
      ((s2.makeSerializer (s.makeSerializer st).2).1).read
          (s2.makeSerializer (s.makeSerializer st).2).2 = some s2.entities) ∧
    (∀ s2 ctr2, s.addPlayer ⟨1⟩ ctr = some (.ok (s2, ctr2)) →
      ((s.makeSerializer st).1).read (s2.makeSerializer (s.makeSerializer st).2).2
        = some s.entities) := by
  have hloc : ((s.makeSerializer st).1).loc < ((s.makeSerializer st).2).cells.length := by
    simp [State.makeSerializer]
  refine ⟨makeSerializer_read s st, ?_, ?_, ?_, ?_⟩
  · rw [Serializer.read_extend _ _ _ hloc]
    exact makeSerializer_read s st
  · intro s2
    have h1 : ((s2.makeSerializer ⟨((s.makeSerializer st).2).cells ++ ext⟩).1).loc
        = (((s.makeSerializer st).2).cells ++ ext).length := rfl
    have h2 : ((s.makeSerializer st).1).loc = st.cells.length := rfl
    rw [h1, h2]
    simp only [State.makeSerializer, List.length_append, List.length_cons,
      List.length_nil]
    omega
  · intro s2 ctr2 _
    constructor
    · rw [show (s2.makeSerializer (s.makeSerializer st).2).2
            = ⟨((s.makeSerializer st).2).cells ++ [s2.entities]⟩ from rfl]
      rw [Serializer.read_extend _ _ _ hloc]
      exact makeSerializer_read s st
    · exact makeSerializer_read s2 (s.makeSerializer st).2
  · intro s2 ctr2 _
    rw [show (s2.makeSerializer (s.makeSerializer st).2).2
          = ⟨((s.makeSerializer st).2).cells ++ [s2.entities]⟩ from rfl]
    rw [Serializer.read_extend _ _ _ hloc]
    exact makeSerializer_read s st

/-- Witness for C8: in the concrete game `st0`, the snapshot taken before a
tick still serialises the pre-tick entities after the tick has happened and
published its own snapshot. -/
theorem c8_witness :
    ((st0.makeSerializer ⟨[]⟩).1).read
        ((((st0.tick 0 Moves.new).get (by decide)).1).makeSerializer
          (st0.makeSerializer ⟨[]⟩).2).2 = some st0.entities := by
  have h := (c8_snapshot_independence st0 ⟨[]⟩ [] 0 Moves.new).2.2.2.1
  have hx := h (((st0.tick 0 Moves.new).get (by decide)).1)
    (((st0.tick 0 Moves.new).get (by decide)).2)
    (by rfl)
  exact hx.1

/-! ## C1: last-writer-wins intent merging -/

/-- Whether a loop input is a `Move` event from a non-observer (the only
events C1 quantifies over; an observer `Move` trips the assert instead). -/
def isMoveEvent : LoopInput → Bool
  | .event (some (.move p _)) => !p.isObserver
  | _ => false

/-- The directives submitted for the pair `(p, b)` by one `Move` event from
player `q` carrying messages `ms`, in arrival order. -/
def dirsFromMsgs (p : Player) (b : BeeID) (q : Player) (ms : List MoveMsg) :
    List (Option Direction) :=
  if q = p then (ms.filter (fun mv => mv.bee = b)).map (fun mv => mv.direction)
  else []

/-- The directives submitted for the pair `(p, b)` by one loop input. -/
def dirsFromInput (p : Player) (b : BeeID) : LoopInput → List (Option Direction)
  | .event (some (.move q ms)) => dirsFromMsgs p b q ms
  | _ => []

/-- All directives submitted for the pair `(p, b)` across a sequence of loop
inputs, in arrival order. -/
def directivesFor (p : Player) (b : BeeID) (inputs : List LoopInput) :
    List (Option Direction) :=
  (inputs.map (dirsFromInput p b)).flatten

/-- The net effect of a directive sequence under last-writer-wins: the last
directive if any (where `some d` means a pending direction `d` and `none`
means cleared), and cleared when no directive arrived. -/
def lastDirective (ds : List (Option Direction)) : Option Direction :=
  ds.foldl (fun _ d => d) none

/-- Looking up one merged `protocol::Move`: the key addressed by the message
takes the message's direction; every other key is untouched. -/
theorem applyMove_lookup (q : Player) (nm : Moves) (mv : MoveMsg)
    (p : Player) (b : BeeID) :
    applyMove q nm mv (p, b)
      = if (p, b) = (q, mv.bee) then mv.direction else nm (p, b) := by
  cases hd : mv.direction with
  | some d => simp [applyMove, hd, Moves.insert]
  | none => simp [applyMove, hd, Moves.remove]

/-- Looking up the merge of one whole `Move` event is the left fold of the
event's directives for that key over the previous pending value. -/
theorem applyMoves_lookup (q : Player) (ms : List MoveMsg) (nm : Moves)
    (p : Player) (b : BeeID) :
    applyMoves q ms nm (p, b)
      = (dirsFromMsgs p b q ms).foldl (fun _ d => d) (nm (p, b)) := by
  induction ms generalizing nm with
  | nil => simp [applyMoves, dirsFromMsgs]
  | cons mv rest ih =>
    have hstep : applyMoves q (mv :: rest) nm = applyMoves q rest (applyMove q nm mv) :=
      rfl
    rw [hstep, ih]
    by_cases hq : q = p
    · subst hq
      by_cases hb : mv.bee = b
      · simp [dirsFromMsgs, List.filter_cons, hb, applyMove_lookup]
      · have hk : ¬ ((q, b) = (q, mv.bee)) := by simp [Ne.symm hb]
        simp [dirsFromMsgs, List.filter_cons, hb, applyMove_lookup, hk]
    · have hk : ¬ ((p, b) = (q, mv.bee)) := by simp [Ne.symm hq]
      simp [dirsFromMsgs, hq, applyMove_lookup, hk]

/-- Over a run of `Move`-only events, the pending buffer's entry for each
key is the fold of all directives for that key over its starting value. -/
theorem runLoop_moves_lookup (inputs : List LoopInput) (ls : LoopState)
    (hmoves : inputs.all isMoveEvent = true) (p : Player) (b : BeeID) :
    (runLoop ls inputs).1.nextMoves (p, b)
      = (directivesFor p b inputs).foldl (fun _ d => d) (ls.nextMoves (p, b)) := by
  induction inputs generalizing ls with
  | nil => rfl
  | cons i is ih =>
    rw [List.all_cons, Bool.and_eq_true] at hmoves
    obtain ⟨hi, his⟩ := hmoves
    match i, hi with
    | .event (some (.move q ms)), hi =>
      have hobs : q.isObserver = false := by
        simpa [isMoveEvent] using hi
      have hstep : runLoop ls (LoopInput.event (some (.move q ms)) :: is)
          = runLoop { ls with nextMoves := applyMoves q ms ls.nextMoves } is := by
        simp [runLoop, loopStep, hobs]
      rw [hstep, ih _ his]
      have hdir : directivesFor p b (LoopInput.event (some (.move q ms)) :: is)
          = dirsFromMsgs p b q ms ++ directivesFor p b is := by
        simp [directivesFor, dirsFromInput]
      rw [hdir, List.foldl_append]
      congr 1
      exact applyMoves_lookup q ms ls.nextMoves p b

/-- C1: intent merging is last-writer-wins per tick window.  Starting from a
pending buffer that is empty (as it is right after any tick), after the game
loop processes any sequence of (non-observer) `Move` events, the buffer maps
each `(player, bee)` pair to `some d` exactly when the pair's last submitted
directive was direction `d`, and to no entry when the last directive was
`none` or no directive arrived; and the branch that applies a tick always
hands `State::tick` this buffer and leaves the buffer empty again. -/
theorem c1_intent_merge (ls : LoopState) (inputs : List LoopInput)
    (hstart : ls.nextMoves = Moves.new)
    (hmoves : inputs.all isMoveEvent = true) :
    (∀ p b, (runLoop ls inputs).1.nextMoves (p, b)
        = lastDirective (directivesFor p b inputs)) ∧
    (∀ ls2 r, loopStep (runLoop ls inputs).1 .tick = .cont ls2 r →
        ls2.nextMoves = Moves.new) := by
  constructor
  · intro p b
    rw [runLoop_moves_lookup inputs ls hmoves p b, hstart]
    rfl
  · intro ls2 r h
    unfold loopStep at h
    cases htick : ((runLoop ls inputs).1).state.tick ((runLoop ls inputs).1).beeCtr
        ((runLoop ls inputs).1).nextMoves with
    | none => rw [htick] at h; cases h
    | some r2 =>
      rw [htick] at h
      injection h with h1 h2
      rw [← h1]

/-- Concrete `Move` events: player 1 directs bee 5 north, then east, and
clears bee 6. -/
def moveInputs1 : List LoopInput :=
  [.event (some (.move ⟨1⟩ [⟨⟨5⟩, some .north⟩])),
   .event (some (.move ⟨1⟩ [⟨⟨5⟩, some .east⟩, ⟨⟨6⟩, none⟩]))]

/-- Witness for C1: after the two concrete `Move` events, bee 5 carries the
last direction (east) and bee 6 has no entry. -/
theorem c1_witness :
    (runLoop (initLoopState st0 0) moveInputs1).1.nextMoves (⟨1⟩, ⟨5⟩)
        = some Direction.east ∧
    (runLoop (initLoopState st0 0) moveInputs1).1.nextMoves (⟨1⟩, ⟨6⟩) = none := by
  have h := c1_intent_merge (initLoopState st0 0) moveInputs1 rfl (by decide)
  exact ⟨(h.1 ⟨1⟩ ⟨5⟩).trans (by rfl), (h.1 ⟨1⟩ ⟨6⟩).trans (by rfl)⟩

/-! ## C2: idempotent-safe admission -/

/-- `Hive::handle_bees` never changes which player owns the hive. -/
theorem handleBees_player (bs : List Bee) (h : Hive) :
    ((h.handleBees bs).1).player = h.player := by
  induction bs generalizing h with
  | nil => rfl
  | cons b rest ih =>
    unfold Hive.handleBees
    by_cases hc : b.position = h.position ∧ b.player = h.player
    · rw [if_pos hc]
      exact ih { h with score := h.score + b.pollen }
    · rw [if_neg hc]
      exact ih h

/-- The hive pass of a tick preserves the list of hive owners. -/
theorem handleHives_players (hs : List Hive) (bs : List Bee) :
    ((handleHives hs bs).1).map (fun h => h.player) = hs.map (fun h => h.player) := by
  induction hs generalizing bs with
  | nil => rfl
  | cons h rest ih =>
    have hstep : (handleHives (h :: rest) bs).1
        = (h.handleBees bs).1 :: (handleHives rest (h.handleBees bs).2).1 := rfl
    rw [hstep]
    simp only [List.map_cons]
    rw [handleBees_player bs h, ih ((h.handleBees bs).2)]

/-- `State::tick` preserves the list of players in the game. -/
theorem tick_players {s : State} {ctr : Nat} {m : Moves} {s2 : State}
    {ctr2 : Nat} (h : s.tick ctr m = some (s2, ctr2)) :
    s2.players = s.players := by
  unfold State.tick at h
  cases he : s.entities.tick s.config s.rng ctr m with
  | none => rw [he] at h; simp at h
  | some r =>
    rw [he] at h
    simp only [Option.map_some', Option.some.injEq, Prod.mk.injEq] at h
    obtain ⟨hs2, _⟩ := h
    subst hs2
    simp only [Entities.tick] at he
    split at he
    · simp only [Option.some.injEq] at he
      subst he
      simp only [State.players]
      exact handleHives_players s.entities.hives
        (s.entities.bees.map (fun b => b.step m s.config.world))
    · simp at he

/-- The game-loop invariant: the active-player set has no duplicates and
every active player owns a hive in the simulation. -/
def LoopInv (ls : LoopState) : Prop :=
  ls.activePlayers.Nodup ∧ ∀ p ∈ ls.activePlayers, p ∈ ls.state.players

/-- One loop step preserves the invariant. -/
theorem loopStep_inv {ls : LoopState} (hinv : LoopInv ls) (i : LoopInput) :
    (∀ ls2 r, loopStep ls i = .cont ls2 r → LoopInv ls2) ∧
    (∀ ls2, loopStep ls i = .halt ls2 → LoopInv ls2) := by
  obtain ⟨hnd, hmem⟩ := hinv
  cases i with
  | tick =>
    refine ⟨?_, ?_⟩
    · intro ls2 r h
      simp only [loopStep] at h
      cases ht : ls.state.tick ls.beeCtr ls.nextMoves with
      | none => rw [ht] at h; cases h
      | some r2 =>
        rw [ht] at h
        injection h with h1 h2
        subst h1
        refine ⟨hnd, fun p hp => ?_⟩
        rw [tick_players ht]
        exact hmem p hp
    · intro ls2 h
      simp only [loopStep] at h
      cases ht : ls.state.tick ls.beeCtr ls.nextMoves with
      | none => rw [ht] at h; cases h
      | some r2 => rw [ht] at h; cases h
  | event e =>
    cases e with
    | none =>
      refine ⟨fun ls2 r h => ?_, fun ls2 h => ?_⟩
      · simp only [loopStep] at h; cases h
      · simp only [loopStep] at h
        injection h with h1
        subst h1
        exact ⟨hnd, hmem⟩
    | some ev =>
      cases ev with
      | finish =>
        refine ⟨fun ls2 r h => ?_, fun ls2 h => ?_⟩
        · simp only [loopStep] at h; cases h
        · simp only [loopStep] at h
          injection h with h1
          subst h1
          exact ⟨hnd, hmem⟩
      | disconnect player =>
        refine ⟨fun ls2 r h => ?_, fun ls2 h => ?_⟩
        · simp only [loopStep] at h
          injection h with h1 h2
          subst h1
          refine ⟨hnd.erase player, fun p hp => ?_⟩
          exact hmem p (List.mem_of_mem_erase hp)
        · simp only [loopStep] at h; cases h
      | move player moves =>
        refine ⟨fun ls2 r h => ?_, fun ls2 h => ?_⟩
        · simp only [loopStep] at h
          by_cases hobs : player.isObserver
          · rw [if_pos hobs] at h; cases h
          · rw [if_neg hobs] at h
            injection h with h1 h2
            subst h1
            exact ⟨hnd, hmem⟩
        · simp only [loopStep] at h
          by_cases hobs : player.isObserver
          · rw [if_pos hobs] at h; cases h
          · rw [if_neg hobs] at h; cases h
      | addPlayer player =>
        refine ⟨fun ls2 r h => ?_, fun ls2 h => ?_⟩
        · simp only [loopStep] at h
          by_cases hobs : player.isObserver
          · rw [if_pos hobs] at h
            injection h with h1 h2
            subst h1
            exact ⟨hnd, hmem⟩
          · rw [if_neg hobs] at h
            cases ha : ls.state.addPlayer player ls.beeCtr with
            | none => rw [ha] at h; cases h
            | some res =>
              rw [ha] at h
              cases res with
              | error msg =>
                injection h with h1 h2
                subst h1
                exact ⟨hnd, hmem⟩
              | ok r2 =>
                have hpres := addPlayer_ok_mem
                  (show ls.state.addPlayer player ls.beeCtr
                      = some (.ok (r2.1, r2.2)) by simpa using ha)
                simp only [insertActive] at h
                by_cases hin : player ∈ ls.activePlayers
                · rw [if_pos hin] at h
                  simp only at h
                  injection h with h1 h2
                  subst h1
                  exact ⟨hnd, fun p hp => hpres.2 p (hmem p hp)⟩
                · rw [if_neg hin] at h
                  simp only at h
                  injection h with h1 h2
                  subst h1
                  refine ⟨?_, fun p hp => ?_⟩
                  · rw [List.nodup_append]
                    exact ⟨hnd, List.nodup_singleton player,
                      by simpa [List.disjoint_singleton] using hin⟩
                  · rcases List.mem_append.mp hp with hp1 | hp2
                    · exact hpres.2 p (hmem p hp1)
                    · rw [List.mem_singleton.mp hp2]
                      exact hpres.1
        · simp only [loopStep] at h
          by_cases hobs : player.isObserver
          · rw [if_pos hobs] at h; cases h
          · rw [if_neg hobs] at h
            cases ha : ls.state.addPlayer player ls.beeCtr with
            | none => rw [ha] at h; cases h
            | some res =>
              rw [ha] at h
              cases res with
              | error msg => cases h
              | ok r2 =>
                simp only [insertActive] at h
                by_cases hin : player ∈ ls.activePlayers
                · rw [if_pos hin] at h; simp only at h; cases h
                · rw [if_neg hin] at h; simp only at h; cases h

/-- The invariant holds at every state the loop reaches. -/
theorem runLoop_inv {ls : LoopState} (hinv : LoopInv ls)
    (inputs : List LoopInput) : LoopInv (runLoop ls inputs).1 := by
  induction inputs generalizing ls with
  | nil => exact hinv
  | cons i is ih =>
    cases hstep : loopStep ls i with
    | cont ls2 r =>
      have h2 := (loopStep_inv hinv i).1 ls2 r hstep
      simpa [runLoop, hstep] using ih h2
    | halt ls2 =>
      have h2 := (loopStep_inv hinv i).2 ls2 hstep
      simpa [runLoop, hstep] using h2
    | panicked =>
      simpa [runLoop, hstep] using hinv

/-- C2: admission is idempotent-safe.  At any state the game loop can reach
from a fresh start: (1) an `AddPlayer` for a non-observer already in the
active set is answered `Err "Duplicate player ID"`; (2) an `AddPlayer` for
the observer sentinel is answered `Ok` and changes nothing; (3) after a
`Disconnect` for a previously admitted player (one owning a hive), a
subsequent `AddPlayer` for that player is answered `Ok`. -/
theorem c2_admission (st : State) (ctr : Nat) (inputs : List LoopInput)
    (ls : LoopState) (status : LoopStatus)
    (hreach : runLoop (initLoopState st ctr) inputs = (ls, status))
    (player : Player) :
    (player.isObserver = false → player ∈ ls.activePlayers →
      (loopStep ls (.event (some (.addPlayer player)))).replyOf
        = some (.error "Duplicate player ID")) ∧
    (loopStep ls (.event (some (.addPlayer Player.observer)))
        = .cont ls (some (.ok ()))) ∧
    (player.isObserver = false → player ∈ ls.state.players →
      ∀ ls2 r, loopStep ls (.event (some (.disconnect player))) = .cont ls2 r →
        (loopStep ls2 (.event (some (.addPlayer player)))).replyOf
          = some (.ok ())) := by
  have hinv : LoopInv ls := by
    have h0 : LoopInv (initLoopState st ctr) := by
      refine ⟨List.nodup_nil, ?_⟩
      intro p hp
      simp [initLoopState] at hp
    have := runLoop_inv h0 inputs
    rwa [hreach] at this
  refine ⟨?_, ?_, ?_⟩
  · intro hobs hmem
    have hadd := addPlayer_of_mem ls.state player ls.beeCtr hobs
      (hinv.2 player hmem)
    simp [loopStep, hobs, hadd, insertActive, hmem, StepOutcome.replyOf]
  · simp [loopStep, Player.observer, Player.isObserver]
  · intro hobs hmemp ls2 r h
    simp only [loopStep] at h
    injection h with h1 h2
    subst h1
    have hmemp2 : player ∈ ls.state.players := hmemp
    have hadd := addPlayer_of_mem ls.state player ls.beeCtr hobs hmemp2
    have hnotmem : player ∉ ls.activePlayers.erase player :=
      hinv.1.not_mem_erase
    simp [loopStep, hobs, hadd, insertActive, hnotmem, StepOutcome.replyOf]

/-- The loop state after admitting player 1 into the concrete game `st0`. -/
def lsAfterAdd : LoopState :=
  (runLoop (initLoopState st0 0) [.event (some (.addPlayer ⟨1⟩))]).1

/-- Witness for C2: in the concrete reachable state with player 1 active,
re-admission is refused as a duplicate, admitting the observer is a no-op
success, and disconnecting then re-admitting player 1 succeeds. -/
theorem c2_witness :
    (loopStep lsAfterAdd (.event (some (.addPlayer ⟨1⟩)))).replyOf
        = some (.error "Duplicate player ID") ∧
    loopStep lsAfterAdd (.event (some (.addPlayer Player.observer)))
        = .cont lsAfterAdd (some (.ok ())) ∧
    (loopStep { lsAfterAdd with
                  activePlayers := lsAfterAdd.activePlayers.erase ⟨1⟩ }
        (.event (some (.addPlayer ⟨1⟩)))).replyOf = some (.ok ()) := by
  have h := c2_admission st0 0 [.event (some (.addPlayer ⟨1⟩))] lsAfterAdd
    .running rfl ⟨1⟩
  exact ⟨h.1 rfl (by decide), h.2.1, h.2.2 rfl (by decide) _ _ rfl⟩

/-! ## C4: loop robustness against single events -/

/-- A non-observer `add_player` call never panics (the assert only guards
the observer sentinel). -/
theorem addPlayer_ne_none (s : State) (player : Player) (ctr : Nat)
    (hobs : player.isObserver = false) :
    s.addPlayer player ctr ≠ none := by
  unfold State.addPlayer
  rw [if_neg (by simp [hobs])]
  simp

/-- Counterexample to C4 as stated: a `Move` event whose player is the
observer sentinel is not logged-and-dropped — it trips
`assert!(!player.is_observer())` and panics the game loop. -/
theorem c4_counterexample :
    loopStep (initLoopState st0 0) (.event (some (.move Player.observer [])))
      = .panicked := rfl

/-- C4 (amended): processing any single event other than `Finish` keeps the
game loop running — except a `Move` event whose player is the observer
sentinel, which fails a debug assertion and panics the loop; and the loop
breaks out only on `Finish` or on the event queue closing. -/
theorem c4_amended_robust (ls : LoopState) (e : GameEvent)
    (hfin : e ≠ .finish)
    (hobs : ∀ p ms, e = .move p ms → p.isObserver = false) :
    (∃ ls2 r, loopStep ls (.event (some e)) = .cont ls2 r) ∧
    loopStep ls (.event (some .finish)) = .halt ls ∧
    loopStep ls (.event none) = .halt ls ∧
    (∀ i ls2, loopStep ls i = .halt ls2 →
      i = .event (some .finish) ∨ i = .event none) := by
  refine ⟨?_, rfl, rfl, ?_⟩
  · cases e with
    | addPlayer player =>
      by_cases hpo : player.isObserver
      · exact ⟨ls, some (.ok ()), by simp [loopStep, hpo]⟩
      · cases ha : ls.state.addPlayer player ls.beeCtr with
        | none => exact absurd ha (addPlayer_ne_none ls.state player ls.beeCtr
            (by simpa using hpo))
        | some res =>
          cases res with
          | error msg =>
            exact ⟨ls, some (.error msg), by simp [loopStep, hpo, ha]⟩
          | ok r2 =>
            by_cases hin : player ∈ ls.activePlayers
            · refine ⟨{ ls with
                  state := r2.1, beeCtr := r2.2,
                  activePlayers := (insertActive ls.activePlayers player).1 },
                some (.error "Duplicate player ID"), ?_⟩
              simp [loopStep, hpo, ha, insertActive, hin]
            · refine ⟨{ ls with
                  state := r2.1, beeCtr := r2.2,
                  activePlayers := (insertActive ls.activePlayers player).1 },
                some (.ok ()), ?_⟩
              simp [loopStep, hpo, ha, insertActive, hin]
    | disconnect player => exact ⟨_, none, rfl⟩
    | move player moves =>
      have h := hobs player moves rfl
      exact ⟨{ ls with nextMoves := applyMoves player moves ls.nextMoves }, none,
        by simp [loopStep, h]⟩
    | finish => exact absurd rfl hfin
  · intro i ls2 h
    cases i with
    | tick =>
      simp only [loopStep] at h
      cases ht : ls.state.tick ls.beeCtr ls.nextMoves with
      | none => rw [ht] at h; cases h
      | some r2 => rw [ht] at h; cases h
    | event e2 =>
      cases e2 with
      | none => exact Or.inr rfl
      | some ev =>
        cases ev with
        | finish => exact Or.inl rfl
        | addPlayer player =>
          simp only [loopStep] at h
          by_cases hpo : player.isObserver
          · rw [if_pos hpo] at h; cases h
          · rw [if_neg hpo] at h
            cases ha : ls.state.addPlayer player ls.beeCtr with
            | none => rw [ha] at h; cases h
            | some res =>
              rw [ha] at h
              cases res with
              | error msg => cases h
              | ok r2 =>
                simp only [insertActive] at h
                by_cases hin : player ∈ ls.activePlayers
                · rw [if_pos hin] at h; simp only at h; cases h
                · rw [if_neg hin] at h; simp only at h; cases h
        | disconnect player => simp only [loopStep] at h; cases h
        | move player moves =>
          simp only [loopStep] at h
          by_cases hpo : player.isObserver
          · rw [if_pos hpo] at h; cases h
          · rw [if_neg hpo] at h; cases h

/-- Witness for C4 (amended): a `Disconnect` for an unknown player keeps the
loop running, while `Finish` and queue closure break it. -/
theorem c4_witness :
    (∃ ls2 r, loopStep (initLoopState st0 0) (.event (some (.disconnect ⟨5⟩)))
        = .cont ls2 r) ∧
    loopStep (initLoopState st0 0) (.event (some .finish))
        = .halt (initLoopState st0 0) ∧
    loopStep (initLoopState st0 0) (.event none) = .halt (initLoopState st0 0) := by
  have h := c4_amended_robust (initLoopState st0 0) (.disconnect ⟨5⟩)
    (fun hc => by cases hc) (fun p ms hc => by cases hc)
  exact ⟨h.1, h.2.1, h.2.2.1⟩

/-! ## C5 and C7: session message sequencing -/

/-- An element produced by `getLast?` is a member of the list. -/
theorem getLast?_mem_self {α : Type} {l : List α} {a : α}
    (h : l.getLast? = some a) : a ∈ l := by
  obtain ⟨hne, rfl⟩ := List.mem_getLast?_eq_getLast (by simpa using h)
  exact List.getLast_mem hne

/-- Every message the player processing loop itself sends is an `Update` or
a `Warning` — never an `Error` and never `Done`. -/
theorem playerLoop_msgs (l : List ActiveIn) :
    ∀ m ∈ (playerLoop l).1, m.isError = false ∧ m ≠ .done := by
  induction l with
  | nil => simp [playerLoop]
  | cons i rest ih =>
    intro m hm
    cases i with
    | update r =>
      cases r with
      | ok d =>
        simp only [playerLoop] at hm
        rcases List.mem_cons.mp hm with rfl | hm2
        · exact ⟨rfl, by simp⟩
        · exact ih m hm2
      | lagged n =>
        simp only [playerLoop] at hm
        rcases List.mem_cons.mp hm with rfl | hm2
        · exact ⟨rfl, by simp⟩
        · exact ih m hm2
      | closed => simp [playerLoop] at hm
    | packet p =>
      match p with
      | some (.ok (.movesMsg ms)) =>
        simp only [playerLoop] at hm
        exact ih m hm
      | some (.ok (.register nm)) =>
        simp only [playerLoop] at hm
        rcases List.mem_cons.mp hm with rfl | hm2
        · exact ⟨rfl, by simp⟩
        · exact ih m hm2
      | some (.error e) =>
        simp only [playerLoop] at hm
        rcases List.mem_cons.mp hm with rfl | hm2
        · exact ⟨rfl, by simp⟩
        · exact ih m hm2
      | none => simp [playerLoop] at hm

/-- C5 (amended): last-message discipline as the code implements it.  A
session cut off by the shutdown signal, a protocol violation or transport
error at registration, or a refused/unreachable registration all end with an
`Error` as the last (or only) message; a session whose inbound stream hits
end-of-file before registering ends in error with *no* message at all; a
registered session that ends because the broadcast channel closed (graceful
shutdown) sends `Done` last; and a registered player session that ends in
error (inbound end-of-file) sends no trailing `Error` or `Done` — its last
message is whatever `Registration`/`Update`/`Warning` came before. -/
theorem c5_amended_last_message (s : SessionScript) :
    (s.first = .shutdownFired →
      (handlePlayer s).1.getLast? = some (.error "Game already finished")) ∧
    (s.first = .packet none → handlePlayer s = ([], .completedErr)) ∧
    (∀ e, s.first = .packet (some (.error e)) →
      handlePlayer s = ([.error e], .completedErr)) ∧
    (∀ ms, s.first = .packet (some (.ok (.movesMsg ms))) →
      handlePlayer s = ([.error "Expected registration"], .completedErr)) ∧
    (∀ name m, s.first = .packet (some (.ok (.register name))) →
      s.reg = .refused m → handlePlayer s = ([.error m], .completedErr)) ∧
    (∀ name, s.first = .packet (some (.ok (.register name))) →
      s.reg = .queueClosed →
      handlePlayer s = ([.error "Game already finished"], .completedErr)) ∧
    (∀ name, s.first = .packet (some (.ok (.register name))) →
      s.reg = .accepted → (handlePlayer s).2 = .completedOk →
      (handlePlayer s).1.getLast? = some .done) ∧
    (∀ name, name ≠ "" → s.first = .packet (some (.ok (.register name))) →
      s.reg = .accepted → (handlePlayer s).2 = .completedErr →
      ∀ m, (handlePlayer s).1.getLast? = some m →
        m.isError = false ∧ m ≠ .done) := by
  obtain ⟨f, reg, act⟩ := s
  refine ⟨?_, ?_, ?_, ?_, ?_, ?_, ?_, ?_⟩
  · intro h; subst h; rfl
  · intro h; subst h; rfl
  · intro e h; subst h; rfl
  · intro ms h; subst h; rfl
  · intro name m h1 h2
    subst h1; subst h2
    by_cases hn : name = ""
    · simp [handlePlayer, hn, handleObserverScript]
    · simp [handlePlayer, hn]
  · intro name h1 h2
    subst h1; subst h2
    by_cases hn : name = ""
    · simp [handlePlayer, hn, handleObserverScript]
    · simp [handlePlayer, hn]
  · intro name h1 h2 hok
    subst h1; subst h2
    by_cases hn : name = ""
    · simp only [handlePlayer, if_pos hn, handleObserverScript] at hok ⊢
      cases hr : (obsLoop act).2 with
      | completedOk =>
        show (SrvMsg.registration :: ((obsLoop act).1 ++ [SrvMsg.done])).getLast?
            = some SrvMsg.done
        rw [← List.cons_append]
        exact List.getLast?_concat _
      | completedErr => rw [hr] at hok; cases hok
      | stillRunning => rw [hr] at hok; cases hok
    · simp only [handlePlayer, if_neg hn] at hok ⊢
      cases hr : (playerLoop act).2 with
      | completedOk =>
        show (SrvMsg.registration :: ((playerLoop act).1 ++ [SrvMsg.done])).getLast?
            = some SrvMsg.done
        rw [← List.cons_append]
        exact List.getLast?_concat _
      | completedErr => rw [hr] at hok; cases hok
      | stillRunning => rw [hr] at hok; cases hok
  · intro name hn h1 h2 herr m hlast
    subst h1; subst h2
    simp only [handlePlayer, if_neg hn] at herr hlast
    cases hr : (playerLoop act).2 with
    | completedOk => rw [hr] at herr; cases herr
    | stillRunning => rw [hr] at herr; cases herr
    | completedErr =>
      rw [hr] at hlast
      have hmem := getLast?_mem_self hlast
      rcases List.mem_cons.mp hmem with rfl | hm2
      · exact ⟨rfl, by simp⟩
      · exact playerLoop_msgs act m hm2

/-- A session whose inbound stream hits end-of-file before the registration
message arrives. -/
def c5CexScript : SessionScript := ⟨.packet none, .accepted, []⟩

/-- Counterexample to C5 as stated: this session terminates due to an error
(inbound stream EOF), yet the code sends no message at all — in particular
the last message sent is not an `Error`. -/
theorem c5_counterexample :
    (handlePlayer c5CexScript).2 = .completedErr ∧
    (handlePlayer c5CexScript).1 = [] :=
  ⟨rfl, rfl⟩

/-- A registered player session that sees one update and then the closed
broadcast channel. -/
def c5OkScript : SessionScript :=
  ⟨.packet (some (.ok (.register "alice"))), .accepted,
   [.update (.ok ⟨0⟩), .update .closed]⟩

/-- Witness for C5 (amended): the gracefully shut down session ends with
`Done`, and a transport error at registration ends with that `Error` alone. -/
theorem c5_witness :
    (handlePlayer c5OkScript).1.getLast? = some .done ∧
    handlePlayer ⟨.packet (some (.error "io")), .accepted, []⟩
        = ([.error "io"], .completedErr) := by
  have h := c5_amended_last_message c5OkScript
  have h2 := c5_amended_last_message ⟨.packet (some (.error "io")), .accepted, []⟩
  exact ⟨h.2.2.2.2.2.2.1 "alice" rfl rfl rfl, h2.2.2.1 "io" rfl⟩

/-- C7 (amended): when the next broadcast receive of a *player* session is
`Lagged(n)`, the session sends exactly one `Warning` whose text carries the
count `n` and then continues exactly as it would on the remaining inputs; an
*observer* session only logs the lag, sending nothing, and also continues.
Lag never terminates either kind of session. -/
theorem c7_amended_lag_warning (n : Nat) (rest : List ActiveIn) :
    playerLoop (.update (.lagged n) :: rest)
      = (.warning (lagMessage n) :: (playerLoop rest).1, (playerLoop rest).2) ∧
    obsLoop (.update (.lagged n) :: rest) = obsLoop rest := by
  constructor
  · rfl
  · rfl

/-- Counterexample to C7 as stated: an observer session (a subscriber) whose
next receive is `Lagged(3)` sends no `Warning` at all — its message list is
just `Registration` then `Done`. -/
theorem c7_counterexample :
    handleObserverScript .accepted [.update (.lagged 3), .update .closed]
      = ([.registration, .done], .completedOk) ∧
    SrvMsg.warning (lagMessage 3) ∉ [SrvMsg.registration, SrvMsg.done] := by
  exact ⟨rfl, by decide⟩
